import Mathlib

/- A shallow embedding of the caep configuration library (src/caep/schema.py),
   together with a model of the parts of the Python standard library that the
   source relies on: re.split / re.sub with a negative look-behind on a literal
   single-character pattern, argparse option actions, and the int() / float() /
   bool() conversions.  Python strings are modelled as lists of characters. -/

set_option autoImplicit false

namespace Caep

/-- Model of Python re.split with pattern "(?<!\\)d" for a literal single-character
delimiter d (schema.py, lines 45 and 72): split at every occurrence of d whose
immediately preceding character in the original string is not a backslash.
The parameter prev tracks the character preceding the current position in the
original string (none at the beginning); re's look-behind inspects the original
string, so prev advances to the consumed character even across removals/splits. -/
def reSplit (d : Char) : Option Char → List Char → List (List Char)
  | _, [] => [[]]
  | prev, c :: rest =>
    if c = d ∧ prev ≠ some '\\' then
      [] :: reSplit d (some c) rest
    else
      match reSplit d (some c) rest with
      | [] => [[c]]
      | t :: ts => (c :: t) :: ts

/-- Model of Python re.sub with pattern "(?<!\\)\\" and empty replacement
(schema.py, line 45): delete every backslash whose immediately preceding
character in the original string is not itself a backslash. -/
def reSub : Option Char → List Char → List Char
  | _, [] => []
  | prev, c :: rest =>
    if c = '\\' ∧ prev ≠ some '\\' then reSub (some c) rest
    else c :: reSub (some c) rest

/-- Embedding of escape_split (schema.py, lines 43-45): split the value at the
delimiter occurrences that are not preceded by a backslash, then apply the
backslash-removing substitution to every resulting token.  The default
delimiter is a single space (DEFAULT_SPLIT, schema.py line 13). -/
def escape_split (value : List Char) (split : Char := ' ') : List (List Char) :=
  (reSplit split none value).map (reSub none)

/-- Specification-side join: interleave the delimiter between consecutive tokens.
Joining the raw split tokens with the delimiter must reconstruct the input,
which expresses that the tokens are exactly the substrings between split points. -/
def joinWith (d : Char) : List (List Char) → List Char
  | [] => []
  | [t] => t
  | t :: t2 :: ts => t ++ d :: joinWith d (t2 :: ts)

/-- Specification-side predicate: within a token, every occurrence of the
delimiter is immediately preceded by a backslash (entry context prev), i.e.
the token contains no splittable delimiter occurrence. -/
def tokOk (d : Char) : Option Char → List Char → Bool
  | _, [] => true
  | prev, c :: rest =>
    if c = d ∧ prev ≠ some '\\' then false
    else tokOk d (some c) rest

/-- Specification-side positional description of the unescaping step: keep the
character at a position unless it is a backslash whose predecessor in the token
is not a backslash.  Stated over the list of (character, predecessor) pairs. -/
def stripSpec (l : List Char) : List Char :=
  (l.zip (none :: l.map some)).filterMap
    (fun p => if p.1 = '\\' ∧ p.2 ≠ some '\\' then none else some p.1)

/-- Specification-side splitter, following the spec's words: annotate every
character of the input with its predecessor in the original string, and open a
new token boundary exactly at the characters that equal the delimiter and
whose predecessor is not a backslash; every other character is kept as token
content.  Each annotated character is judged independently by that predicate,
so equality with this function states that the split happens at exactly the
delimiter occurrences not immediately preceded by a backslash. -/
def splitSpec (v : List Char) (d : Char) : List (List Char) :=
  (v.zip (none :: v.map some)).foldr
    (fun p acc =>
      if p.1 = d ∧ p.2 ≠ some '\\' then [] :: acc
      else
        match acc with
        | [] => [[p.1]]
        | t :: ts => (p.1 :: t) :: ts)
    [[]]

theorem reSplit_ne_nil (d : Char) (prev : Option Char) (l : List Char) :
    reSplit d prev l ≠ [] := by
  cases l with
  | nil => simp [reSplit]
  | cons c rest =>
    by_cases h : c = d ∧ prev ≠ some '\\'
    · simp [reSplit, h]
    · simp only [reSplit, if_neg h]
      cases reSplit d (some c) rest <;> simp

theorem joinWith_reSplit (d : Char) (l : List Char) :
    ∀ prev, joinWith d (reSplit d prev l) = l := by
  induction l with
  | nil => intro prev; simp [reSplit, joinWith]
  | cons c rest ih =>
    intro prev
    by_cases h : c = d ∧ prev ≠ some '\\'
    · simp only [reSplit, if_pos h]
      cases hr : reSplit d (some c) rest with
      | nil => exact absurd hr (reSplit_ne_nil d (some c) rest)
      | cons t ts =>
        have hj := ih (some c)
        rw [hr] at hj
        simp only [joinWith, List.nil_append]
        rw [hj, h.1]
    · simp only [reSplit, if_neg h]
      cases hr : reSplit d (some c) rest with
      | nil => exact absurd hr (reSplit_ne_nil d (some c) rest)
      | cons t ts =>
        have hj := ih (some c)
        rw [hr] at hj
        cases ts with
        | nil =>
          simp only [joinWith] at hj ⊢
          rw [hj]
        | cons t2 ts2 =>
          simp only [joinWith, List.cons_append] at hj ⊢
          rw [hj]

theorem reSplit_tokOk (d : Char) (l : List Char) :
    ∀ prev, ∃ t ts, reSplit d prev l = t :: ts ∧ tokOk d prev t = true ∧
      ∀ u ∈ ts, tokOk d (some d) u = true := by
  induction l with
  | nil =>
    intro prev
    exact ⟨[], [], rfl, rfl, by simp⟩
  | cons c rest ih =>
    intro prev
    obtain ⟨t0, ts0, hR, ht0, hts0⟩ := ih (some c)
    by_cases h : c = d ∧ prev ≠ some '\\'
    · refine ⟨[], t0 :: ts0, ?_, rfl, ?_⟩
      · simp only [reSplit, if_pos h, hR]
      · intro u hu
        rcases List.mem_cons.mp hu with h1 | h2
        · subst h1
          have hsd : some d = some c := by rw [h.1]
          rw [hsd]
          exact ht0
        · exact hts0 u h2
    · refine ⟨c :: t0, ts0, ?_, ?_, hts0⟩
      · simp only [reSplit, if_neg h, hR]
      · simp only [tokOk, if_neg h]
        exact ht0

theorem tokOk_entry (d : Char) (p q : Option Char) (hp : p ≠ some '\\')
    (hq : q ≠ some '\\') : ∀ l, tokOk d p l = tokOk d q l := by
  intro l
  cases l with
  | nil => rfl
  | cons c rest =>
    simp only [tokOk]
    by_cases hcd : c = d
    · rw [if_pos ⟨hcd, hp⟩, if_pos ⟨hcd, hq⟩]
    · rw [if_neg (fun hh => hcd hh.1), if_neg (fun hh => hcd hh.1)]

theorem reSub_eq_stripSpecAux (l : List Char) :
    ∀ prev, reSub prev l =
      (l.zip (prev :: l.map some)).filterMap
        (fun p => if p.1 = '\\' ∧ p.2 ≠ some '\\' then none else some p.1) := by
  induction l with
  | nil => intro prev; rfl
  | cons c rest ih =>
    intro prev
    by_cases h : c = '\\' ∧ prev ≠ some '\\'
    · simp only [reSub, if_pos h, List.map_cons, List.zip_cons_cons,
        List.filterMap_cons, ih (some c)]
    · simp only [reSub, if_neg h, List.map_cons, List.zip_cons_cons,
        List.filterMap_cons, ih (some c)]

theorem reSub_none_eq_stripSpec (l : List Char) : reSub none l = stripSpec l :=
  reSub_eq_stripSpecAux l none

theorem reSplit_eq_splitSpecAux (d : Char) (l : List Char) :
    ∀ prev, reSplit d prev l =
      (l.zip (prev :: l.map some)).foldr
        (fun p acc =>
          if p.1 = d ∧ p.2 ≠ some '\\' then [] :: acc
          else
            match acc with
            | [] => [[p.1]]
            | t :: ts => (p.1 :: t) :: ts)
        [[]] := by
  induction l with
  | nil => intro prev; rfl
  | cons c rest ih =>
    intro prev
    simp only [List.map_cons, List.zip_cons_cons, List.foldr_cons, ← ih (some c)]
    by_cases h : c = d ∧ prev ≠ some '\\'
    · simp only [reSplit, if_pos h]
    · simp only [reSplit, if_neg h]

/-- The source's splitting is the specification-side positional splitting. -/
theorem reSplit_eq_splitSpec (v : List Char) (d : Char) :
    reSplit d none v = splitSpec v d :=
  reSplit_eq_splitSpecAux d v none

/-- C3: for every input string and every (non-backslash, literal single-character)
delimiter, escape_split splits at exactly the delimiter occurrences that are
not immediately preceded by a backslash: the raw token list equals the
specification-side positional splitter splitSpec, which by construction opens
a boundary exactly at those occurrences and at no others; in addition, joining
the raw tokens with the delimiter reconstructs the input, no token retains a
splittable delimiter occurrence, and the returned tokens are those substrings
after escape removal; the empty input yields a one-element sequence containing
the empty string.  Purity holds by construction: escape_split is a function of
its arguments alone. -/
theorem claim_C3_escape_split_contract (v : List Char) (d : Char) (hd : d ≠ '\\') :
    reSplit d none v = splitSpec v d
    ∧ joinWith d (reSplit d none v) = v
    ∧ (∀ t ∈ reSplit d none v, tokOk d none t = true)
    ∧ escape_split v d = (splitSpec v d).map (reSub none)
    ∧ escape_split [] d = [[]] := by
  refine ⟨reSplit_eq_splitSpec v d, joinWith_reSplit d v none, ?_, ?_, rfl⟩
  · obtain ⟨t0, ts0, hR, ht0, hts0⟩ := reSplit_tokOk d v none
    intro t ht
    rw [hR] at ht
    rcases List.mem_cons.mp ht with h1 | h2
    · subst h1
      exact ht0
    · have hu := hts0 t h2
      rw [← tokOk_entry d (some d) none (fun hh => hd (Option.some.inj hh))
        (by simp) t]
      exact hu
  · rw [escape_split, reSplit_eq_splitSpec]

theorem claim_C3_witness :
    reSplit ',' none ("x\\,y,z").data = splitSpec ("x\\,y,z").data ','
    ∧ joinWith ',' (reSplit ',' none ("x\\,y,z").data) = ("x\\,y,z").data
    ∧ (∀ t ∈ reSplit ',' none ("x\\,y,z").data, tokOk ',' none t = true)
    ∧ escape_split ("x\\,y,z").data ',' =
        (splitSpec ("x\\,y,z").data ',').map (reSub none)
    ∧ escape_split [] ',' = [[]] :=
  claim_C3_escape_split_contract ("x\\,y,z").data ',' (by decide)

/-- C4 counterexample: the claim says a lone backslash that does not immediately
precede the delimiter is preserved; but on input "a\b" with delimiter ',' the
backslash precedes 'b', not the delimiter, and escape_split still removes it:
the output is ["ab"], not ["a\b"]. -/
theorem claim_C4_counterexample :
    escape_split ("a\\b").data ',' = [("ab").data]
    ∧ escape_split ("a\\b").data ',' ≠ [("a\\b").data] :=
  ⟨by decide, by decide⟩

/-- C4 amended: escape_split strips every backslash that is not itself immediately
preceded by a backslash, regardless of which character follows it (so also
backslashes that do not precede the delimiter); a backslash immediately preceded
by another backslash is preserved.  Stated via the positional description
stripSpec applied to every raw split token. -/
theorem claim_C4_amended (v : List Char) (d : Char) :
    escape_split v d = (reSplit d none v).map stripSpec := by
  have h : reSub none = stripSpec := funext reSub_none_eq_stripSpec
  rw [escape_split, h]

/-- C7: the three concrete splitter examples: escaped commas are kept as literal
data and unescaped, the default delimiter is a single space, and a doubled
backslash survives once. -/
theorem claim_C7_examples :
    escape_split ("A\\,B\\,C,1\\,2\\,3").data ',' = [("A,B,C").data, ("1,2,3").data]
    ∧ escape_split ("ABC 123").data = [("ABC").data, ("123").data]
    ∧ escape_split ("A\\\\BC 123").data = [("A\\BC").data, ("123").data] :=
  ⟨by decide, by decide, by decide⟩

/-- The supported scalar python types, i.e. the values of TYPE_MAPPING
(schema.py, lines 16-21). -/
inductive PyType where
  | pstr
  | pint
  | pfloat
  | pbool
deriving DecidableEq

/-- A python scalar value as it occurs in an argparse namespace or after an
element-type conversion.  Python floats are modelled as rationals. -/
inductive Scalar where
  | none
  | str (s : List Char)
  | int (i : Int)
  | float (q : Rat)
  | bool (b : Bool)
deriving DecidableEq

/-- A value stored in the (modelled) argparse namespace or in the result of
split_lists: a scalar, or a list of scalars (the materialized list fields). -/
inductive PyVal where
  | scalar (s : Scalar)
  | list (l : List Scalar)
deriving DecidableEq

/-- Python truthiness (the "if not value" test in schema.py, line 64) on the
values that can occur in the namespace. -/
def pyFalsy : PyVal → Bool
  | .scalar .none => true
  | .scalar (.str s) => s.isEmpty
  | .scalar (.int i) => i = 0
  | .scalar (.float q) => q = 0
  | .scalar (.bool b) => !b
  | .list l => l.isEmpty

/-- Digit accumulator for the numeric conversions. -/
def digitsValAux (acc : Nat) : List Char → Option Nat
  | [] => some acc
  | c :: rest =>
    if c.isDigit then digitsValAux (acc * 10 + (c.toNat - 48)) rest else none

/-- Parse a non-empty all-digit string. -/
def parseNatStrict (l : List Char) : Option Nat :=
  if l.isEmpty then none else digitsValAux 0 l

/-- Model of the Python builtin int(str) restricted to plain decimal numerals
with an optional sign; any other string raises ValueError, modelled as none. -/
def parseIntPy : List Char → Option Int
  | '-' :: rest => (parseNatStrict rest).map (fun n => -(n : Int))
  | '+' :: rest => (parseNatStrict rest).map (fun n => (n : Int))
  | l => (parseNatStrict l).map (fun n => (n : Int))

/-- Magnitude part of a decimal float numeral: digits, optionally followed by a
dot and further digits; at least one digit overall. -/
def parseFloatMag (l : List Char) : Option Rat :=
  let ip := l.takeWhile Char.isDigit
  let rest := l.dropWhile Char.isDigit
  match rest with
  | [] => (parseNatStrict ip).map (fun n => (n : Rat))
  | '.' :: frac =>
    if frac.all Char.isDigit ∧ (ip ≠ [] ∨ frac ≠ []) then
      match digitsValAux 0 ip, digitsValAux 0 frac with
      | some n, some f => some ((n : Rat) + (f : Rat) / (10 : Rat) ^ frac.length)
      | _, _ => Option.none
    else none
  | _ => none

/-- Model of the Python builtin float(str) restricted to plain decimal numerals
with an optional sign; any other string raises ValueError, modelled as none. -/
def parseFloatPy : List Char → Option Rat
  | '-' :: rest => (parseFloatMag rest).map Neg.neg
  | '+' :: rest => parseFloatMag rest
  | l => parseFloatMag l

/-- Applying one of the TYPE_MAPPING python types to a string token, as in
"array_type(v)" (schema.py, line 72) and argparse scalar conversion:
str is the identity, int/float parse numerals (ValueError on failure, modelled
as none), and bool is Python string truthiness (non-empty means True). -/
def convert : PyType → List Char → Option Scalar
  | .pstr, s => some (.str s)
  | .pint, s => (parseIntPy s).map Scalar.int
  | .pfloat, s => (parseFloatPy s).map Scalar.float
  | .pbool, s => some (.bool (!s.isEmpty))

/-- Embedding of the ArrayInfo pydantic model (schema.py, lines 35-37): element
type and the configured split delimiter (default a single space). -/
structure ArrayInfo where
  array_type : PyType
  split : Char
deriving DecidableEq

/-- First-match association-list lookup, modelling python dict access keyed by
field name. -/
def alookup {α : Type} (k : String) : List (String × α) → Option α
  | [] => none
  | (k2, v) :: rest => if k = k2 then some v else alookup k rest

/-- One iteration of the split_lists loop (schema.py, lines 61-74) for a single
(field, value) pair of the namespace: a field not in arrays passes through
unchanged; a falsy value becomes the empty list; otherwise the raw string is
split with re.split on the configured delimiter (with the negative look-behind,
and with no unescaping substitution applied) and each token is converted with
the configured element type.  none models an uncaught ValueError / TypeError. -/
def split_one (arrays : List (String × ArrayInfo)) (p : String × PyVal) :
    Option (String × PyVal) :=
  match alookup p.1 arrays with
  | Option.none => some p
  | some info =>
    if pyFalsy p.2 then some (p.1, .list [])
    else
      match p.2 with
      | .scalar (.str s) =>
        match (reSplit info.split none s).mapM (convert info.array_type) with
        | Option.none => none
        | some vals => some (p.1, .list vals)
      | _ => none

/-- Embedding of split_lists (schema.py, lines 48-76): apply split_one to every
namespace entry, building the new mapping in the same order. -/
def split_lists (args : List (String × PyVal)) (arrays : List (String × ArrayInfo)) :
    Option (List (String × PyVal)) :=
  match args with
  | [] => some []
  | p :: rest =>
    match split_one arrays p, split_lists rest arrays with
    | some q, some qs => some (q :: qs)
    | _, _ => none

theorem split_one_fst (arrays : List (String × ArrayInfo)) (p q : String × PyVal)
    (h : split_one arrays p = some q) : q.1 = p.1 := by
  unfold split_one at h
  repeat' split at h
  all_goals first
    | (cases h; rfl)
    | cases h

theorem split_one_absent_or_empty (arrays : List (String × ArrayInfo))
    (p : String × PyVal) (info : ArrayInfo) (halo : alookup p.1 arrays = some info)
    (hv : p.2 = PyVal.scalar Scalar.none ∨ p.2 = PyVal.scalar (Scalar.str [])) :
    split_one arrays p = some (p.1, PyVal.list []) := by
  have hf : pyFalsy p.2 = true := by
    rcases hv with hv | hv <;> rw [hv] <;> rfl
  simp [split_one, halo, hf]

/-- C10: whenever split_lists returns (does not raise), the returned mapping has
exactly the input namespace's fields, in order, and every field that is not in
the arrays table keeps its input value unchanged. -/
theorem claim_C10_split_lists_frame (args : List (String × PyVal))
    (arrays : List (String × ArrayInfo)) (out : List (String × PyVal))
    (h : split_lists args arrays = some out) :
    out.map Prod.fst = args.map Prod.fst
    ∧ List.Forall₂ (fun (a b : String × PyVal) =>
        alookup a.1 arrays = Option.none → b = a) args out := by
  induction args generalizing out with
  | nil =>
    cases h
    exact ⟨rfl, List.Forall₂.nil⟩
  | cons p rest ih =>
    unfold split_lists at h
    cases h1 : split_one arrays p with
    | none => rw [h1] at h; cases h
    | some q =>
      cases h2 : split_lists rest arrays with
      | none => rw [h1, h2] at h; cases h
      | some qs =>
        rw [h1, h2] at h
        cases h
        obtain ⟨ihm, ihf⟩ := ih qs h2
        constructor
        · simp only [List.map_cons, ihm, split_one_fst arrays p q h1]
        · refine List.Forall₂.cons ?_ ihf
          intro hnone
          simp only [split_one, hnone] at h1
          cases h1
          rfl

theorem claim_C10_witness :
    ([("xs", PyVal.list [Scalar.str ("a").data, Scalar.str ("b").data]),
      ("n", PyVal.scalar (Scalar.int 5))].map Prod.fst
      = [("xs", PyVal.scalar (Scalar.str ("a b").data)),
         ("n", PyVal.scalar (Scalar.int 5))].map Prod.fst)
    ∧ List.Forall₂ (fun (a b : String × PyVal) =>
        alookup a.1 [("xs", ArrayInfo.mk PyType.pstr ' ')] = Option.none → b = a)
      [("xs", PyVal.scalar (Scalar.str ("a b").data)),
       ("n", PyVal.scalar (Scalar.int 5))]
      [("xs", PyVal.list [Scalar.str ("a").data, Scalar.str ("b").data]),
       ("n", PyVal.scalar (Scalar.int 5))] := by
  have h := claim_C10_split_lists_frame
    [("xs", PyVal.scalar (Scalar.str ("a b").data)),
     ("n", PyVal.scalar (Scalar.int 5))]
    [("xs", ArrayInfo.mk PyType.pstr ' ')]
    [("xs", PyVal.list [Scalar.str ("a").data, Scalar.str ("b").data]),
     ("n", PyVal.scalar (Scalar.int 5))]
    (by decide)
  exact ⟨h.1.symm ▸ h.1, h.2⟩

/-- C8: whenever split_lists returns, every list-declared field (present in the
arrays table) whose namespace value is absent (None) or the empty string is
materialized as the empty list, not as a one-element list holding an empty
token. -/
theorem claim_C8_empty_yields_empty_list (args : List (String × PyVal))
    (arrays : List (String × ArrayInfo)) (out : List (String × PyVal))
    (h : split_lists args arrays = some out) :
    List.Forall₂ (fun (a b : String × PyVal) =>
      (alookup a.1 arrays).isSome →
      (a.2 = PyVal.scalar Scalar.none ∨ a.2 = PyVal.scalar (Scalar.str [])) →
      b = (a.1, PyVal.list [])) args out := by
  induction args generalizing out with
  | nil =>
    cases h
    exact List.Forall₂.nil
  | cons p rest ih =>
    unfold split_lists at h
    cases h1 : split_one arrays p with
    | none => rw [h1] at h; cases h
    | some q =>
      cases h2 : split_lists rest arrays with
      | none => rw [h1, h2] at h; cases h
      | some qs =>
        rw [h1, h2] at h
        cases h
        refine List.Forall₂.cons ?_ (ih qs h2)
        intro hsome hv
        cases halo : alookup p.1 arrays with
        | none => rw [halo] at hsome; cases hsome
        | some info =>
          have := split_one_absent_or_empty arrays p info halo hv
          rw [this] at h1
          cases h1
          rfl

theorem claim_C8_witness :
    List.Forall₂ (fun (a b : String × PyVal) =>
      (alookup a.1 [("xs", ArrayInfo.mk PyType.pstr ' '),
                    ("ys", ArrayInfo.mk PyType.pint ',')]).isSome →
      (a.2 = PyVal.scalar Scalar.none ∨ a.2 = PyVal.scalar (Scalar.str [])) →
      b = (a.1, PyVal.list []))
      [("xs", PyVal.scalar Scalar.none), ("ys", PyVal.scalar (Scalar.str []))]
      [("xs", PyVal.list []), ("ys", PyVal.list [])] :=
  claim_C8_empty_yields_empty_list
    [("xs", PyVal.scalar Scalar.none), ("ys", PyVal.scalar (Scalar.str []))]
    [("xs", ArrayInfo.mk PyType.pstr ' '), ("ys", ArrayInfo.mk PyType.pint ',')]
    [("xs", PyVal.list []), ("ys", PyVal.list [])]
    (by decide)

/-- C2 fails on the code: split_lists splits the raw string with the
look-behind-guarded re.split but never applies the unescaping substitution of
escape_split, so the escaping backslashes remain in the produced tokens.  On
the repository's own test input (test_schema.py, test_schema_commandline_escaped_list)
the field value "A\,B\,C,1\,2\,3" with delimiter ',' is materialized as
["A\,B\,C", "1\,2\,3"], while escape_split — which the spec and the test expect
to be applied — yields ["A,B,C", "1,2,3"]. -/
theorem claim_C2_split_lists_keeps_backslashes :
    split_lists
        [("strlist", PyVal.scalar (Scalar.str ("A\\,B\\,C,1\\,2\\,3").data))]
        [("strlist", ArrayInfo.mk PyType.pstr ',')]
      = some [("strlist",
          PyVal.list [Scalar.str ("A\\,B\\,C").data, Scalar.str ("1\\,2\\,3").data])]
    ∧ escape_split ("A\\,B\\,C,1\\,2\\,3").data ','
        = [("A,B,C").data, ("1,2,3").data]
    ∧ [Scalar.str ("A\\,B\\,C").data, Scalar.str ("1\\,2\\,3").data]
        ≠ [Scalar.str ("A,B,C").data, Scalar.str ("1,2,3").data] :=
  ⟨by decide, by decide, by decide⟩

/-- Dash-casing of field names (schema.py, line 93): replace underscores by
dashes. -/
def dashize (s : String) : String :=
  String.mk (s.data.map (fun c => if c = '_' then '-' else c))

/-- The inverse direction used by argparse for the namespace attribute (dest):
replace dashes by underscores. -/
def underscoreize (s : String) : String :=
  String.mk (s.data.map (fun c => if c = '-' then '_' else c))

/-- Environment-variable name for a field: uppercased, with dashes replaced by
underscores (spec section 4.2). -/
def envKey (s : String) : String :=
  String.mk ((underscoreize s).data.map Char.toUpper)

/-- One entry of the pydantic schema properties mapping, as consumed by
build_parser (schema.py): the json-schema type, the element type for arrays
(items.type), the optional split delimiter, the optional default and the
optional description. -/
structure FieldSchema where
  ftype : String
  items : String
  split : Option Char
  default : Option PyVal
  description : Option String
deriving DecidableEq

/-- argparse option actions relevant here: the default value-taking store
action, and the store_true toggle action. -/
inductive ArgAction where
  | store
  | storeTrue
deriving DecidableEq

/-- One registered argparse option, as produced by add_argument in build_parser
(schema.py, lines 119-124): dashed option name, value conversion type, default,
action and help text.  The source calls add_argument without an action keyword,
so every option gets the argparse default store action. -/
structure ArgSpec where
  name : String
  argType : PyType
  default : Option PyVal
  action : ArgAction
  help : String
deriving DecidableEq

/-- Embedding of TYPE_MAPPING (schema.py, lines 16-21). -/
def TYPE_MAPPING (s : String) : Option PyType :=
  if s = "string" then some PyType.pstr
  else if s = "integer" then some PyType.pint
  else if s = "number" then some PyType.pfloat
  else if s = "boolean" then some PyType.pbool
  else none

/-- Embedding of build_parser (schema.py, lines 79-126): loop over the schema
fields in order; array fields are recorded in the arrays table under their
dashed name with their element type and split delimiter and registered as
string options; other fields are registered with their mapped python type; a
type (or array element type) outside TYPE_MAPPING raises FieldError, modelled
as the error branch.  Every option is registered via add_argument with the
field's default and description and no action keyword. -/
def buildParser :
    List (String × FieldSchema) → Except Unit (List ArgSpec × List (String × ArrayInfo))
  | [] => Except.ok ([], [])
  | (field, schema) :: rest =>
    let fieldD := dashize field
    let helpText := schema.description.getD "No help provided"
    if schema.ftype = "array" then
      match TYPE_MAPPING schema.items with
      | Option.none => Except.error ()
      | some aty =>
        match buildParser rest with
        | Except.error e => Except.error e
        | Except.ok (specs, arrays) =>
          Except.ok
            (ArgSpec.mk fieldD PyType.pstr schema.default ArgAction.store helpText
               :: specs,
             (fieldD, ArrayInfo.mk aty (schema.split.getD ' ')) :: arrays)
    else
      match TYPE_MAPPING schema.ftype with
      | Option.none => Except.error ()
      | some fty =>
        match buildParser rest with
        | Except.error e => Except.error e
        | Except.ok (specs, arrays) =>
          Except.ok
            (ArgSpec.mk fieldD fty schema.default ArgAction.store helpText :: specs,
             arrays)

/-- Model of argparse consumption of one registered option over a token list:
an occurrence of the bare flag "--name" either sets True (store_true action) or
consumes the next token as the value, converted with the option's type; a
missing value token or a failed conversion is an argparse error (none); the
last occurrence wins; with no occurrence the accumulated value (initially the
declared default) stands. -/
def parseOptionGo (spec : ArgSpec) (acc : PyVal) : List String → Option PyVal
  | [] => some acc
  | t :: rest =>
    if t = "--" ++ spec.name then
      match spec.action with
      | ArgAction.storeTrue => parseOptionGo spec (PyVal.scalar (Scalar.bool true)) rest
      | ArgAction.store =>
        match rest with
        | [] => none
        | v :: rest2 =>
          match convert spec.argType v.data with
          | Option.none => none
          | some sc => parseOptionGo spec (PyVal.scalar sc) rest2
    else parseOptionGo spec acc rest

/-- argparse parse of a single option starting from its declared default. -/
def parseOption (spec : ArgSpec) (tokens : List String) : Option PyVal :=
  parseOptionGo spec (spec.default.getD (PyVal.scalar Scalar.none)) tokens

/-- Modelled from the spec: the per-field precedence resolution performed by
caep.config.handle_args (module caep/config.py, which is not under src/).
Spec section 4.3: evaluate the sources in the fixed order command-line,
environment, config-file and take the first that supplies a non-absent raw
value; if none supplies one, use the declared default when present, else
resolve to absent (None), to be caught at validation. -/
def resolve_field (cli env ini : Option (List Char)) (dflt : Option PyVal) : PyVal :=
  match cli with
  | some v => PyVal.scalar (Scalar.str v)
  | Option.none =>
    match env with
    | some v => PyVal.scalar (Scalar.str v)
    | Option.none =>
      match ini with
      | some v => PyVal.scalar (Scalar.str v)
      | Option.none =>
        match dflt with
        | some d => d
        | Option.none => PyVal.scalar Scalar.none

/-- Modelled from the spec: caep.config.handle_args (caep/config.py, not under
src/) builds the argparse namespace: one entry per registered option, keyed by
the underscored argparse dest, resolved per resolve_field, with the
environment consulted under the uppercased underscored field name. -/
def handle_args (specs : List ArgSpec) (cli env ini : List (String × List Char)) :
    List (String × PyVal) :=
  specs.map (fun spec =>
    (underscoreize spec.name,
     resolve_field (alookup spec.name cli) (alookup (envKey spec.name) env)
       (alookup spec.name ini) spec.default))

/-- One reported field error of a pydantic ValidationError: the field name
(first element of loc) and the message. -/
structure ErrItem where
  loc : String
  msg : String
deriving DecidableEq

/-- The observable outcome of a load call: the constructed object, an uncaught
SchemaError / FieldError / ValueError, a re-raised ValidationError, or a
process exit carrying the exit status, the printed per-field error lines, and
whether the parser help was printed after them. -/
inductive LoadOutcome where
  | ok (cfg : List (String × PyVal))
  | schemaError
  | fieldError
  | valueError
  | validationError (errs : List ErrItem)
  | exit (code : Nat) (printed : List String) (helpPrintedAfter : Bool)
deriving DecidableEq

/-- The per-error line printed by load (schema.py, line 178): the message,
" for --", the dash-cased field name, and the f-string's newline. -/
def fmtErrLine (e : ErrItem) : String :=
  e.msg ++ " for --" ++ dashize e.loc ++ "\n"

/-- Embedding of load (schema.py, lines 129-181).  The pydantic model is given
by its schema properties together with its validator: validate stands for the
model construction model(**args), returning either the constructed object or
the field errors of a pydantic ValidationError.  The three source mappings
stand for the tokenized command line, the process environment and the
discovered config-file section, consumed by the spec-modelled handle_args.
The try/except wraps only the model construction, exactly as in the source;
the exit_on_validation_error parameter is accepted and never read, exactly as
in the source. -/
def load (props : List (String × FieldSchema))
    (validate : List (String × PyVal) → Except (List ErrItem) (List (String × PyVal)))
    (cli env ini : List (String × List Char))
    (raise_on_validation_error : Bool)
    (exit_on_validation_error : Bool := true) : LoadOutcome :=
  if props.isEmpty then LoadOutcome.schemaError
  else
    match buildParser props with
    | Except.error _ => LoadOutcome.fieldError
    | Except.ok (specs, arrays) =>
      match split_lists (handle_args specs cli env ini) arrays with
      | Option.none => LoadOutcome.valueError
      | some args =>
        match validate args with
        | Except.ok cfg => LoadOutcome.ok cfg
        | Except.error errs =>
          if raise_on_validation_error then LoadOutcome.validationError errs
          else LoadOutcome.exit 1 (errs.map fmtErrLine) true

/-- C1: the resolver takes the first source in the fixed order command line,
environment variable, config file that supplies a non-absent raw value,
regardless of what the lower-priority sources contain; with no source value it
takes the declared default when present, and otherwise resolves to absent
(None), left for the subsequent validation to catch. -/
theorem claim_C1_precedence (cli env ini : Option (List Char)) (dflt : Option PyVal) :
    (∀ v, cli = some v →
        resolve_field cli env ini dflt = PyVal.scalar (Scalar.str v))
    ∧ (∀ v, cli = Option.none → env = some v →
        resolve_field cli env ini dflt = PyVal.scalar (Scalar.str v))
    ∧ (∀ v, cli = Option.none → env = Option.none → ini = some v →
        resolve_field cli env ini dflt = PyVal.scalar (Scalar.str v))
    ∧ (∀ d, cli = Option.none → env = Option.none → ini = Option.none →
        dflt = some d → resolve_field cli env ini dflt = d)
    ∧ (cli = Option.none → env = Option.none → ini = Option.none →
        dflt = Option.none →
        resolve_field cli env ini dflt = PyVal.scalar Scalar.none) := by
  refine ⟨?_, ?_, ?_, ?_, ?_⟩ <;> intros <;> subst_vars <;> rfl

theorem claim_C1_witness :
    resolve_field (some ("c").data) (some ("e").data) (some ("i").data)
        (some (PyVal.scalar (Scalar.int 7))) = PyVal.scalar (Scalar.str ("c").data)
    ∧ resolve_field Option.none (some ("e").data) (some ("i").data)
        (some (PyVal.scalar (Scalar.int 7))) = PyVal.scalar (Scalar.str ("e").data)
    ∧ resolve_field Option.none Option.none (some ("i").data)
        (some (PyVal.scalar (Scalar.int 7))) = PyVal.scalar (Scalar.str ("i").data)
    ∧ resolve_field Option.none Option.none Option.none
        (some (PyVal.scalar (Scalar.int 7))) = PyVal.scalar (Scalar.int 7)
    ∧ resolve_field Option.none Option.none Option.none Option.none
        = PyVal.scalar Scalar.none :=
  ⟨(claim_C1_precedence (some ("c").data) (some ("e").data) (some ("i").data)
      (some (PyVal.scalar (Scalar.int 7)))).1 _ rfl,
   (claim_C1_precedence Option.none (some ("e").data) (some ("i").data)
      (some (PyVal.scalar (Scalar.int 7)))).2.1 _ rfl rfl,
   (claim_C1_precedence Option.none Option.none (some ("i").data)
      (some (PyVal.scalar (Scalar.int 7)))).2.2.1 _ rfl rfl rfl,
   (claim_C1_precedence Option.none Option.none Option.none
      (some (PyVal.scalar (Scalar.int 7)))).2.2.2.1 _ rfl rfl rfl rfl,
   (claim_C1_precedence Option.none Option.none Option.none
      Option.none).2.2.2.2 rfl rfl rfl rfl⟩

/-- C5 fails on the code: build_parser registers a boolean field as an ordinary
value-taking option (the argparse default store action, with type=bool), not
as a store_true toggle; parsing a command line containing the bare flag with
no value token is therefore an argparse error (modelled as none) instead of a
flip of the declared default. -/
theorem claim_C5_bool_not_toggle :
    buildParser [("flag1", FieldSchema.mk "boolean" "" Option.none
        (some (PyVal.scalar (Scalar.bool true))) Option.none)]
      = Except.ok ([ArgSpec.mk "flag1" PyType.pbool
          (some (PyVal.scalar (Scalar.bool true))) ArgAction.store "No help provided"],
          [])
    ∧ parseOption (ArgSpec.mk "flag1" PyType.pbool
          (some (PyVal.scalar (Scalar.bool true))) ArgAction.store "No help provided")
        ["--flag1"] = Option.none
    ∧ ArgAction.store ≠ ArgAction.storeTrue :=
  ⟨rfl, rfl, by decide⟩

/-- C9: structural/authoring errors propagate out of load uncaught: an empty
properties mapping makes load end in the SchemaError outcome, and a field (or
array element) type rejected by build_parser makes it end in the FieldError
outcome — in both cases the error itself is the outcome, not a printed report
or exit. -/
theorem claim_C9_structural_errors (props : List (String × FieldSchema))
    (validate : List (String × PyVal) → Except (List ErrItem) (List (String × PyVal)))
    (cli env ini : List (String × List Char)) (r : Bool) :
    (props = [] → load props validate cli env ini r = LoadOutcome.schemaError)
    ∧ (∀ e, props ≠ [] → buildParser props = Except.error e →
        load props validate cli env ini r = LoadOutcome.fieldError) := by
  constructor
  · intro h
    subst h
    rfl
  · intro e hne hbe
    cases props with
    | nil => exact absurd rfl hne
    | cons p rest =>
      unfold load
      rw [hbe]
      rfl

theorem claim_C9_witness :
    load [] (fun a => Except.ok a) [] [] [] false = LoadOutcome.schemaError
    ∧ load [("xs", FieldSchema.mk "array" "object" Option.none Option.none
        Option.none)] (fun a => Except.ok a) [] [] [] false
        = LoadOutcome.fieldError :=
  ⟨(claim_C9_structural_errors [] (fun a => Except.ok a) [] [] [] false).1 rfl,
   (claim_C9_structural_errors
      [("xs", FieldSchema.mk "array" "object" Option.none Option.none Option.none)]
      (fun a => Except.ok a) [] [] [] false).2 () (List.cons_ne_nil _ _) rfl⟩

/-- C6: when the final model construction fails validation, load re-raises the
validation error if raise_on_validation_error is set; otherwise it prints one
line per reported field error of the form "<message> for --<dash-cased name>",
then the parser's help text, and exits with status 1. -/
theorem claim_C6_validation_reporting (p0 : String × FieldSchema)
    (props : List (String × FieldSchema))
    (validate : List (String × PyVal) → Except (List ErrItem) (List (String × PyVal)))
    (cli env ini : List (String × List Char)) (specs : List ArgSpec)
    (arrays : List (String × ArrayInfo)) (args : List (String × PyVal))
    (errs : List ErrItem)
    (hbp : buildParser (p0 :: props) = Except.ok (specs, arrays))
    (hsl : split_lists (handle_args specs cli env ini) arrays = some args)
    (hv : validate args = Except.error errs) :
    load (p0 :: props) validate cli env ini true = LoadOutcome.validationError errs
    ∧ load (p0 :: props) validate cli env ini false
        = LoadOutcome.exit 1 (errs.map fmtErrLine) true := by
  constructor <;> simp [load, hbp, hsl, hv]

theorem claim_C6_witness :
    load [("str_arg", FieldSchema.mk "string" "" Option.none Option.none Option.none)]
        (fun _ => Except.error [ErrItem.mk "str_arg" "none is not an allowed value"])
        [] [] [] true
      = LoadOutcome.validationError
          [ErrItem.mk "str_arg" "none is not an allowed value"]
    ∧ load [("str_arg", FieldSchema.mk "string" "" Option.none Option.none Option.none)]
        (fun _ => Except.error [ErrItem.mk "str_arg" "none is not an allowed value"])
        [] [] [] false
      = LoadOutcome.exit 1 ["none is not an allowed value for --str-arg\n"] true := by
  have h := claim_C6_validation_reporting
    ("str_arg", FieldSchema.mk "string" "" Option.none Option.none Option.none) []
    (fun _ => Except.error [ErrItem.mk "str_arg" "none is not an allowed value"])
    [] [] []
    [ArgSpec.mk "str-arg" PyType.pstr Option.none ArgAction.store "No help provided"]
    [] [("str_arg", PyVal.scalar Scalar.none)]
    [ErrItem.mk "str_arg" "none is not an allowed value"]
    rfl rfl rfl
  exact ⟨h.1, h.2.trans (by rfl)⟩

end Caep
